import Mathlib

/-!
# Verification of the decode-config binary configuration codec

Shallow embedding of the core of `decode-config.py` (Tasmota configuration
backup/restore tool): the checksum unit, the schema version resolver, the
value validator, the scalar field accessor (`get_fieldvalue` /
`set_fieldvalue` / the scalar branch of `set_field`), fragments of
`bin2mapping` / `mapping2bin`, and the Unishox compression codec.

Buffers are byte lists (`List Nat`, each entry `< 256`); Python's `struct`
little-endian pack/unpack is modelled explicitly; Python integers are `Int`
where sign matters and `Nat` where the source only manipulates non-negative
values. Text is modelled byte-transparently (the source decodes the buffer
with `str(..., 'utf-8', errors='ignore')`; on the ASCII subset, which is what
the configuration strings hold, this is the identity on bytes).
-/

namespace DecodeConfig

/-- A configuration buffer: a list of byte values. -/
abbrev Buffer := List Nat

/-- `dobj[i]` for byte buffers (source indexing; out-of-range never happens on
the executed paths and is mapped to 0 here). -/
def bufGet (dobj : Buffer) (i : Nat) : Nat := dobj.getD i 0

/-- Log types of `message` / `exit_` (class `LogType`). -/
inductive LogType
  | INFO
  | WARNING
  | ERROR
deriving DecidableEq, Repr

/-- Program return codes (class `ExitCode`); only the codes reached by the
embedded fragments are listed. -/
def ExitCode.OK : Nat := 0
def ExitCode.DATA_SIZE_MISMATCH : Nat := 4
def ExitCode.DATA_CRC_ERROR : Nat := 5
def ExitCode.UNSUPPORTED_VERSION : Nat := 6
def ExitCode.RESTORE_DATA_ERROR : Nat := 9

/-- A call to `exit_(status, msg, type_, ..., doexit, ...)`: the status code,
the log type, and whether the program terminates (`doexit` - when True,
`exit_` calls `sys.exit`, i.e. the condition is fatal). -/
structure ExitCall where
  status : Nat
  logtype : LogType
  doexit : Bool
deriving DecidableEq, Repr

/-- Command line argument state relevant to the embedded code
(`ARGS.ignorewarning`, default `False` per the `DEFAULTS` table). -/
structure Args where
  ignorewarning : Bool
deriving DecidableEq, Repr

/-- The source's defaults: `'ignorewarning': False`. -/
def Args.default : Args := ⟨false⟩

/-! ## Checksum Unit -/

/-- One polynomial-division round of `get_settingcrc32`'s inner loop:
`crc = (crc >> 1) ^ (-int(crc & 1) & 0xEDB88320)`. -/
def crc32_round (crc : Nat) : Nat :=
  (crc >>> 1) ^^^ (if crc &&& 1 = 1 then 0xEDB88320 else 0)

/-- The 8 inner rounds of `get_settingcrc32` applied to one input byte:
`crc ^= dobj[i]` followed by eight rounds. -/
def crc32_byte (crc b : Nat) : Nat :=
  Nat.iterate crc32_round 8 (crc ^^^ b)

/-- `get_settingcrc32(dobj)`: CRC-32 over `dobj[0 .. len(dobj)-4)`, final
value `~crc & 0xffffffff` (one's complement in 32 bits, written here as a
xor with `0xffffffff`, equal for `crc < 2^32`). -/
def get_settingcrc32 (dobj : Buffer) : Nat :=
  0xffffffff ^^^ ((dobj.take (dobj.length - 4)).foldl crc32_byte 0)

/-- `get_settingcrc(dobj)`: legacy weighted 16-bit checksum,
`sum(dobj[i]*(i+1) for i in range(template_size) if i not in [14,15]) & 0xffff`.
The source obtains `template_size` via `get_config_info`; it is passed
explicitly here. -/
def get_settingcrc (template_size : Nat) (dobj : Buffer) : Nat :=
  ((List.range template_size).foldl
    (fun crc i => if i = 14 ∨ i = 15 then crc else crc + bufGet dobj i * (i + 1)) 0)
    &&& 0xffff

/-! ## Schema Version Resolver

`get_config_info` iterates over `sorted(SETTINGS, key=lambda s: s[0],
reverse=True)` and keeps the first entry whose version does not exceed the
observed one; if no entry matches it calls
`exit_(ExitCode.UNSUPPORTED_VERSION, ...)` (fatal, `doexit=True`).
A registry entry `(version_number, template_size, template)` is modelled with
a `Nat` standing for the (opaque) template. -/

/-- One `SETTINGS` registry entry: `(version_number, template_size, template)`
with the template represented opaquely. -/
abbrev SettingsEntry := Nat × Nat × Nat

/-- `sorted(SETTINGS, key=lambda s: s[0], reverse=True)`. -/
def settings_sorted_desc (settings : List SettingsEntry) : List SettingsEntry :=
  List.insertionSort (fun a b => b.1 ≤ a.1) settings

/-- The search loop of `get_config_info`: first entry (in descending version
order) with `version >= cfg[0]`. -/
def get_config_info_search (settings : List SettingsEntry) (version : Nat) :
    Option SettingsEntry :=
  (settings_sorted_desc settings).find? (fun cfg => version ≥ cfg.1)

/-- `get_config_info`, restricted to template resolution: the selected entry,
or the fatal unsupported-version exit when `setting is None`. -/
def get_config_info_m (settings : List SettingsEntry) (version : Nat) :
    Except ExitCall SettingsEntry :=
  match get_config_info_search settings version with
  | some e => .ok e
  | none => .error ⟨ExitCode.UNSUPPORTED_VERSION, LogType.ERROR, true⟩

/-! ## Python integer primitives

Python integers are unbounded; `&`, `|`, `<<`, `>>` act on the infinite
two's-complement representation. The operations below reproduce those
semantics on `Int` for the combinations the source uses. -/

/-- Python `x & m` for arbitrary `x` and non-negative `m`: only the low
`size m` bits of `x` matter, and the low `k` bits of a two's-complement
integer are `x mod 2^k`; `2^(m+1) > m` always holds, so reducing mod
`2^(m+1)` is enough. -/
def pyand (x : Int) (m : Nat) : Nat :=
  (x.emod (2 ^ (m + 1))).toNat &&& m

/-- Python `a | b` for non-negative `a` and arbitrary `b`; for negative `b`,
`a | b = ~(~a & ~b)` where `~x = -x-1`. -/
def pyor (a : Nat) (b : Int) : Int :=
  if 0 ≤ b then ((a ||| b.toNat : Nat) : Int)
  else -((pyand (-(a : Int) - 1) (-b - 1).toNat : Nat) : Int) - 1

/-- Python `x << s` (multiplication by `2^s`, valid for negative `x` too). -/
def pyshl (x : Int) (s : Nat) : Int := x * 2 ^ s

/-- Python `x >> s` (arithmetic shift = floor division by `2^s`). -/
def pyshr (x : Int) (s : Nat) : Int := Int.fdiv x (2 ^ s)

/-! ## Bit/Byte Accessor -/

/-- `struct.unpack_from` of one little-endian unsigned word of `size` bytes. -/
def unpack_le (size : Nat) (dobj : Buffer) (addr : Nat) : Nat :=
  match size with
  | 0 => 0
  | n + 1 => bufGet dobj addr + 256 * unpack_le n dobj (addr + 1)

/-- `struct.pack_into` of one little-endian word of `size` bytes
(the value is reduced mod `2^(8*size)` byte by byte, exactly the bytes the
two's-complement encoding stores). -/
def pack_le (size : Nat) (dobj : Buffer) (addr : Nat) (val : Nat) : Buffer :=
  match size with
  | 0 => dobj
  | n + 1 => pack_le n (dobj.set addr (val % 256)) (addr + 1) (val / 256)

/-- Write a byte list verbatim starting at `addr`. -/
def pack_bytes (dobj : Buffer) (addr : Nat) : List Nat → Buffer
  | [] => dobj
  | b :: bs => pack_bytes (dobj.set addr b) (addr + 1) bs

/-- `struct.pack_into('Ns', dobj, addr, value)`: exactly `count` bytes,
truncated or NUL-padded. -/
def pack_str (count : Nat) (dobj : Buffer) (addr : Nat) (value : List Nat) : Buffer :=
  pack_bytes dobj addr (value.take count ++ List.replicate (count - value.length) 0)

/-- One element of a `struct.unpack_from` result: unsigned word, or its
two's-complement signed reading for signed format characters. -/
def unpack_elem (signed : Bool) (size : Nat) (dobj : Buffer) (addr : Nat) : Int :=
  let v := unpack_le size dobj addr
  if signed ∧ 2 ^ (8 * size - 1) ≤ v then (v : Int) - 2 ^ (8 * size) else (v : Int)

/-- One element write of `set_fieldvalue`'s integer loop (lines 5060-5075):
`val = value & maxunsigned`; when `value < 0 and val > maxsigned` the
correction `val = ((maxunsigned+1)-val) * (-1)` makes `val` negative with
the same two's-complement bytes; then `struct.pack_into(singletype, dobj,
addr, val)`.  `pack_into` accepts a negative `val` only for a signed single
type, and a `val` above `maxsigned` only for an unsigned one; out of range
it raises `struct.error`, caught by the `except` that calls
`exit_(ExitCode.RESTORE_DATA_ERROR, "Single type {} ... - skipped!",
type_=LogType.WARNING, doexit=not ARGS.ignorewarning)` and skips the
element's write.  In every accepted case the bytes stored are the
two's-complement bytes `val mod 2^bitsize = value & maxunsigned`. -/
def set_int_elem (signed : Bool) (size : Nat) (dobj : Buffer) (addr : Nat)
    (value : Int) : Buffer × Option String :=
  let maxunsigned : Nat := 2 ^ (8 * size) - 1
  let maxsigned : Nat := 2 ^ (8 * size - 1) - 1
  let val0 : Nat := pyand value maxunsigned
  if value < 0 ∧ val0 > maxsigned then
    -- corrected `val` is negative: packs only into a signed single type
    if signed then (pack_le size dobj addr val0, none)
    else (dobj, some "Single type - skipped!")
  else
    -- `val = val0` is in `[0, maxunsigned]`: packs only if within the
    -- signed range for a signed single type
    if signed = true ∧ val0 > maxsigned then (dobj, some "Single type - skipped!")
    else (pack_le size dobj addr val0, none)

/-- The element-writing loop of `set_fieldvalue` for integer formats:
`addr += (bitsize//8)*formatcnt`, then `formatcnt` times
`addr -= size; ...pack single element...; value >>= bitsize`; elements are
written from the highest address (holding the lowest bits) downwards, and
the loop keeps going after a skipped element (the raised
`RESTORE_DATA_ERROR` is fatal only outside `--ignore-warning`).  The first
element error is reported. -/
def set_int_elems (signed : Bool) (size : Nat) (dobj : Buffer) (addr : Nat)
    (value : Int) : Nat → Buffer × Option String
  | 0 => (dobj, none)
  | c + 1 =>
      let r := set_int_elem signed size dobj (addr + size * c) value
      let rest := set_int_elems signed size r.1 addr (pyshr value (8 * size)) c
      (rest.1, match r.2 with
               | some e => some e
               | none => rest.2)

/-! ## Field Definition Model -/

/-- The struct format string of a scalar field: unsigned integer characters
(`'B'`, `'<H'`, `'<L'`, `'<Q'`), signed ones (`'b'`, `'<h'`, `'<i'`, `'<l'`),
or a byte string `'Ns'`/`'Np'`; `count` is `get_formatcount`'s prefix. -/
inductive FieldFormat
  | uint (size count : Nat)
  | sint (size count : Nat)
  | strf (count : Nat)
deriving DecidableEq, Repr

/-- `struct.calcsize(format_)`, i.e. `get_fieldlength` of a scalar field. -/
def FieldFormat.calcsize : FieldFormat → Nat
  | .uint size count => size * count
  | .sint size count => size * count
  | .strf count => count

/-- `get_formatcount(format_)`. -/
def FieldFormat.formatcount : FieldFormat → Nat
  | .uint _ count => count
  | .sint _ count => count
  | .strf count => count

/-- `get_fieldminmax(fielddef)`: the `minmax` table entry for the format's
last character, with `max_ *= get_formatcount(format_)` for integers and
`max_ = get_formatcount(format_)` for strings. -/
def FieldFormat.fieldminmax : FieldFormat → Int × Int
  | .uint size count => (0, ((2 : Int) ^ (8 * size) - 1) * count)
  | .sint size count => (-(2 ^ (8 * size - 1)), ((2 : Int) ^ (8 * size - 1) - 1) * count)
  | .strf count => (0, count)

/-- A scalar field definition, as extracted by `get_fielddef`:
format, byte address, optional bit window `(bits, bitshift)`, optional
string-pool index, optional validator.  Converters are modelled as absent
(`converter = None`, the common case; all fields the claims are settled on
declare none), `readonly` models `writeconverter is False`. -/
structure ScalarFieldDef where
  format : FieldFormat
  baseaddr : Nat
  bits : Nat := 0
  bitshift : Int := 0
  strindex : Option Nat := none
  validate : Option (Int → Bool) := none
  readonly : Bool := false

/-- A decoded / to-be-restored scalar value. -/
inductive FieldValue
  | int (i : Int)
  | str (s : List Nat)
deriving DecidableEq, Repr

/-! ## Validator -/

/-- `validate_value(value, fielddef)`: a value of exactly 0 is always accepted;
otherwise the field's validator predicate (the evaluated `"..$.."` string or
callable, modelled as a Lean function) decides, absence meaning accepted. -/
def validate_value (validate : Option (Int → Bool)) (value : Int) : Bool :=
  if value = 0 then
    -- "so we can't validate 0 values"
    true
  else
    match validate with
    | none => true
    | some f => f value

/-! ## String helpers (Python `str` operations on byte-transparent text) -/

/-- `s.split('\x00', maxsplit)`. -/
def pysplit_nul (s : List Nat) : Nat → List (List Nat)
  | 0 => [s]
  | m + 1 =>
      let pre := s.takeWhile (· ≠ 0)
      let rest := s.dropWhile (· ≠ 0)
      match rest with
      | [] => [s]
      | _ :: tail => pre :: pysplit_nul tail m

/-- `s.split('\x00')` (unlimited; a list of length `n` splits at most `n`
times, so the bounded split with `maxsplit = n` coincides with it). -/
def pysplit_nul_all (s : List Nat) : List (List Nat) :=
  pysplit_nul s s.length

/-- `set_fieldvalue(fielddef, dobj, addr, value)`: the updated buffer, plus
the error text of the `RESTORE_DATA_ERROR` exit when `pack_into` raised
`struct.error` on some element (strings pack without a range error). -/
def set_fieldvalue (f : ScalarFieldDef) (dobj : Buffer) (addr : Nat)
    (value : FieldValue) : Buffer × Option String :=
  match f.format, value with
  | .uint size count, .int v => set_int_elems false size dobj addr v count
  | .sint size count, .int v => set_int_elems true size dobj addr v count
  | .strf count, .str s => (pack_str count dobj addr s, none)
  | _, _ => (dobj, none)

/-! ## Scalar field write (`set_field`, simple-value branch) -/

/-- The fieldnames `set_field` refuses to write:
`('cfg_crc', 'cfg_crc32', 'cfg_timestamp', '_')`. -/
def reservedNames : List String := ["cfg_crc", "cfg_crc32", "cfg_timestamp", "_"]

/-- Result of one `set_field` call on a scalar field: the (possibly updated)
buffer, and the `RESTORE_DATA_ERROR` exit raised through `exit_` when the
value was rejected (`err_text`, with `doexit = not ARGS.ignorewarning`). -/
structure SetFieldResult where
  dobj : Buffer
  error : Option String
deriving Repr

/-- The write step at the end of the simple-value branch:
`if valid: if fieldname not in ('cfg_crc', 'cfg_crc32', 'cfg_timestamp',
'_'): set_fieldvalue(...)`, at `baseaddr` for indexed strings (no address
offset) and at `baseaddr + addroffset` otherwise. -/
def write_guarded (dobj : Buffer) (fieldname : String) (f : ScalarFieldDef)
    (value : FieldValue) (addroffset : Nat) : SetFieldResult :=
  if fieldname ∈ reservedNames then ⟨dobj, none⟩
  else
    match f.strindex with
    | some _ =>
        let r := set_fieldvalue f dobj f.baseaddr value
        ⟨r.1, r.2⟩
    | none =>
        let r := set_fieldvalue f dobj (f.baseaddr + addroffset) value
        ⟨r.1, r.2⟩

/-- The integer case of `set_field`'s simple-value branch: validation, the
optional bit-window merge, then the guarded write.  In the bits branch the
word re-read from the buffer is the plain little-endian unsigned word
(registered bit-window fields use unsigned formats). -/
def set_field_int (dobj : Buffer) (fieldname : String) (f : ScalarFieldDef)
    (size : Nat) (restoreval : Int) (addroffset : Nat) : SetFieldResult :=
  if f.bits ≠ 0 then
    let bitvalue := restoreval
    let word := unpack_le size dobj (f.baseaddr + addroffset)
    if ¬validate_value f.validate bitvalue then
      ⟨dobj, some "valid bit range exceeding"⟩
    else
      let mask : Nat := 2 ^ f.bits - 1
      if bitvalue > (mask : Int) then
        -- `min_ = 0; max_ = mask; valid = False` (err_text left empty)
        ⟨dobj, some ""⟩
      else
        let bitvalue' := if 0 ≤ f.bitshift then pyshl bitvalue f.bitshift.toNat
                         else pyshr bitvalue (-f.bitshift).toNat
        let mask' := if 0 ≤ f.bitshift then mask <<< f.bitshift.toNat
                     else mask >>> (-f.bitshift).toNat
        let value := pyor (word &&& (0xffffffff ^^^ mask')) bitvalue'
        write_guarded dobj fieldname f (.int value) addroffset
  else
    if ¬validate_value f.validate restoreval then
      ⟨dobj, some "valid range exceeding"⟩
    else
      write_guarded dobj fieldname f (.int restoreval) addroffset

/-- The indexed-string pool rebuild inside `set_field`'s string branch:
unpack the pool from `baseaddr`, split on NUL (unlimited `str.split`),
truncate to `SET_MAX` slots (`del sarray[-delrange:]`), replace slot
`strindex + addroffset`, and re-join with NUL separators
(`'\0'.join(sarray).encode(...)`). -/
def rejoined_pool (dobj : Buffer) (f : ScalarFieldDef) (count : Nat)
    (value : List Nat) (slot set_max : Nat) : List Nat :=
  let str_ := (dobj.drop f.baseaddr).take count
  let sarray := pysplit_nul_all str_
  let sarray := if sarray.length ≥ set_max then sarray.take set_max else sarray
  let sarray := sarray.set slot value
  (sarray.intersperse [0]).flatten

/-- The string case of `set_field`'s simple-value branch (direct and
indexed): slot-length validation (`max_ -= 1; valid = min_ <= len(value) <=
max_`), for indexed strings the `rejoined_pool` rebuild with the overflow
check, then the guarded write.  `write_converter` with no converter returns
the value unchanged, and the compressed-payload detection (`'\x00'`-prefixed
hex) never fires on the plain strings modelled here. -/
def set_field_str (dobj : Buffer) (fieldname : String) (f : ScalarFieldDef)
    (count : Nat) (restorestr : List Nat) (addroffset : Nat) (set_max : Nat) :
    SetFieldResult :=
  let value := restorestr
  let valid := 0 ≤ value.length ∧ value.length ≤ count - 1
  match f.strindex with
  | none =>
      if valid then write_guarded dobj fieldname f (.str value) addroffset
      else ⟨dobj, some "string length exceeding"⟩
  | some strindex =>
      let new_value := rejoined_pool dobj f count restorestr (strindex + addroffset) set_max
      if new_value.length > f.format.calcsize then
        ⟨dobj, some "Text pool overflow"⟩
      else
        if valid then write_guarded dobj fieldname f (.str new_value) addroffset
        else ⟨dobj, some "string length exceeding"⟩

/-- The simple-value branch of `set_field` (lines 5256-5419) for integer and
string formats, converters absent.  Guards mirror the source: the
`SETTINGVAR` key, the hardware filter `HARDWARE.match(hardware,
config_version)` (passed as the Boolean `hw_match`), the group filter
`is_filtergroup(group)` (`group_ok`), and `writeconverter is False`
(`f.readonly`).  The `valid is None` branch of the source (the object-type
range check) is unreachable - `valid` is initialised `True` and only ever
reassigned a Boolean - and therefore has no counterpart here. -/
def set_field_scalar (dobj : Buffer) (fieldname : String) (f : ScalarFieldDef)
    (restore : FieldValue) (addroffset : Nat) (set_max : Nat)
    (hw_match : Bool := true) (group_ok : Bool := true) : SetFieldResult :=
  if fieldname = "$SETTINGVAR" then ⟨dobj, none⟩
  else if ¬hw_match then ⟨dobj, none⟩
  else if ¬group_ok then ⟨dobj, none⟩
  else if f.readonly then ⟨dobj, none⟩
  else
    match f.format, restore with
    | .uint size _, .int restoreval =>
        set_field_int dobj fieldname f size restoreval addroffset
    | .sint size _, .int restoreval =>
        set_field_int dobj fieldname f size restoreval addroffset
    | .strf count, .str restorestr =>
        set_field_str dobj fieldname f count restorestr addroffset set_max
    | _, _ => ⟨dobj, some "field couldn't restore, format may has changed!"⟩

/-! ## `bin2mapping` / `mapping2bin` fragments -/

/-- The size check at the top of `bin2mapping` (lines 5548-5559), run when
the template declares a `cfg_size` field: `cfg_size` is the size recorded in
the buffer, `template_size` the active schema's expected size.  Both
branches call `exit_(ExitCode.DATA_SIZE_MISMATCH, ..., type_=LogType.ERROR)`
without a `doexit` argument, so `doexit` is `True` (fatal) in both; the
source comments nevertheless read "# may be processed" for the larger case
and "# less number of bytes can not be processed" for the smaller one. -/
def bin2mapping_size_check (cfg_size template_size : Nat) : Option ExitCall :=
  if cfg_size > template_size then
    some ⟨ExitCode.DATA_SIZE_MISMATCH, LogType.ERROR, true⟩
  else if cfg_size < template_size then
    some ⟨ExitCode.DATA_SIZE_MISMATCH, LogType.ERROR, true⟩
  else
    none

/-- The checksum comparison of `bin2mapping` (lines 5582-5587): when the
template declares `cfg_crc32`, the stored CRC32 is compared against
`get_settingcrc32`; otherwise, when it declares `cfg_crc`, the stored legacy
checksum is compared against `get_settingcrc`.  A mismatch calls
`exit_(ExitCode.DATA_CRC_ERROR, ..., type_=LogType.WARNING,
doexit=not ARGS.ignorewarning)`.  The `Option Unit` arguments stand for the
presence of the `cfg_crc32` / `cfg_crc` field definitions in the template;
the stored values are the ones `get_field` read from the buffer. -/
def bin2mapping_crc_check (args : Args) (dobj : Buffer) (template_size : Nat)
    (crc32_fielddef crc_fielddef : Option Unit) (stored_crc32 stored_crc : Nat) :
    Option ExitCall :=
  match crc32_fielddef with
  | some _ =>
      if stored_crc32 ≠ get_settingcrc32 dobj then
        some ⟨ExitCode.DATA_CRC_ERROR, LogType.WARNING, !args.ignorewarning⟩
      else none
  | none =>
      match crc_fielddef with
      | some _ =>
          if stored_crc ≠ get_settingcrc template_size dobj then
            some ⟨ExitCode.DATA_CRC_ERROR, LogType.WARNING, !args.ignorewarning⟩
          else none
      | none => none

/-- The restore loop of `mapping2bin` (lines 5663-5670) over a template of
scalar fields: for every `(name, data)` of the restore mapping whose name
exists in the template, apply `set_field`; unknown names only log (the
buffer is untouched).  This is the buffer state reached just before the
final checksum recomputation. -/
def mapping2bin_apply (template : List (String × ScalarFieldDef))
    (jsonconfig : List (String × FieldValue)) (set_max : Nat)
    (buffer : Buffer) : Buffer :=
  jsonconfig.foldl
    (fun buf nd =>
      match template.lookup nd.1 with
      | some fd => (set_field_scalar buf nd.1 fd nd.2 0 set_max).dobj
      | none => buf)
    buffer

/-! ## Unishox Codec

Byte-faithful port of `class Unishox` (the Tasmota-adapted Unishox text
compressor).  Buffers are byte lists as elsewhere; the caller-allocated
output `bytearray(n)` is a zero-filled list.  Python `while` loops are
compiled to fuel-based recursion; every call site passes fuel provably
larger than the number of iterations the source performs (loop counters
advance by at least one per iteration), so the fuel sentinel is never
reached on any executed input. -/

namespace Unishox

/-- A Python `bytearray` of the codec, modelled as a natural number whose
little-endian base-256 digits are the bytes (digit `i` = `buf[i]`); `get`
and `set` are the corresponding digit operations.  Out-of-range accesses,
which raise `IndexError` in Python and never occur on the executed paths,
read 0 / write into higher digits here. -/
abbrev UBuf := Nat

/-- `buf[i]`. -/
def ubGet (b : UBuf) (i : Nat) : Nat := b / 256 ^ i % 256

/-- `buf[i] = v` (bytearray cells hold bytes; `v < 256` on all executed
paths). -/
def ubSet (b : UBuf) (i v : Nat) : UBuf :=
  b + (v % 256) * 256 ^ i - ubGet b i * 256 ^ i

/-- A byte list as a `UBuf` (`bytearray(x)`). -/
def ofBytes : List Nat → UBuf
  | [] => 0
  | b :: bs => b % 256 + 256 * ofBytes bs

/-- The first `len` bytes of a `UBuf` as a list. -/
def toBytes : UBuf → Nat → List Nat
  | _, 0 => []
  | b, n + 1 => b % 256 :: toBytes (b / 256) n

def SHX_STATE_1 : Nat := 1
def SHX_STATE_2 : Nat := 2

def SHX_SET1 : Int := 0
def SHX_SET1A : Int := 1
def SHX_SET1B : Int := 2
def SHX_SET2 : Int := 3

/-- `cl_95`: per-character (code, length) packed words for the 95 printable
ASCII characters, `code = cl & 0xFFF0`, `len = cl & 0x0F` (a length nibble of
13 means the code is additionally shifted right once). -/
def cl_95 : List Nat :=
  [0x4000 + 3, 0x3F80 + 11, 0x3D80 + 11, 0x3C80 + 10, 0x3BE0 + 12, 0x3E80 + 10,
   0x3F40 + 11, 0x3EC0 + 10, 0x3BA0 + 11, 0x3BC0 + 11, 0x3D60 + 11, 0x3B60 + 11,
   0x3A80 + 10, 0x3AC0 + 10, 0x3A00 + 9, 0x3B00 + 10, 0x38C0 + 10, 0x3900 + 10,
   0x3940 + 11, 0x3960 + 11, 0x3980 + 11, 0x39A0 + 11, 0x39C0 + 11, 0x39E0 + 12,
   0x39F0 + 12, 0x3880 + 10, 0x3CC0 + 10, 0x3C00 + 9, 0x3D00 + 10, 0x3E00 + 9,
   0x3F00 + 10, 0x3B40 + 11, 0x3BF0 + 12, 0x2B00 + 8, 0x21C0 + 11, 0x20C0 + 10,
   0x2100 + 10, 0x2600 + 7, 0x2300 + 11, 0x21E0 + 12, 0x2140 + 11, 0x2D00 + 8,
   0x46B0 + 13, 0x2340 + 12, 0x2080 + 10, 0x21A0 + 11, 0x2E00 + 8, 0x2C00 + 8,
   0x2180 + 11, 0x46A0 + 13, 0x2F80 + 9, 0x2F00 + 9, 0x2A00 + 8, 0x2160 + 11,
   0x2330 + 12, 0x21F0 + 12, 0x46C0 + 13, 0x2320 + 12, 0x46D0 + 13, 0x3DE0 + 12,
   0x3FA0 + 11, 0x3DF0 + 12, 0x3D40 + 11, 0x3F60 + 11, 0x3FF0 + 12, 0xB000 + 4,
   0x1C00 + 7, 0x0C00 + 6, 0x1000 + 6, 0x6000 + 3, 0x3000 + 7, 0x1E00 + 8,
   0x1400 + 7, 0xD000 + 4, 0x3580 + 9, 0x3400 + 8, 0x0800 + 6, 0x1A00 + 7,
   0xE000 + 4, 0xC000 + 4, 0x1800 + 7, 0x3500 + 9, 0xF800 + 5, 0xF000 + 5,
   0xA000 + 4, 0x1600 + 7, 0x3300 + 8, 0x1F00 + 8, 0x3600 + 9, 0x3200 + 8,
   0x3680 + 9, 0x3DA0 + 11, 0x3FC0 + 11, 0x3DC0 + 11, 0x3FE0 + 12]

/-- `sets`: the seven 11-character decode rows, as byte values
(`'\0'` entries are 0). -/
def sets : List (List Nat) :=
  [[0, 32, 101, 0, 116, 97, 111, 105, 110, 115, 114],
   [0, 108, 99, 100, 104, 117, 112, 109, 98, 103, 119],
   [102, 121, 118, 107, 113, 106, 120, 122, 0, 0, 0],
   [0, 57, 48, 49, 50, 51, 52, 53, 54, 55, 56],
   [46, 44, 45, 47, 63, 43, 32, 40, 41, 36, 64],
   [59, 35, 58, 60, 94, 42, 34, 123, 125, 91, 93],
   [61, 37, 39, 62, 38, 95, 33, 92, 124, 126, 96]]

/-- `us_vcode` (32 entries, `value = len + (idx << 3)`). -/
def us_vcode : List Nat :=
  [2 + (0 <<< 3), 3 + (3 <<< 3), 3 + (1 <<< 3), 4 + (6 <<< 3), 0,
   4 + (4 <<< 3), 3 + (2 <<< 3), 4 + (8 <<< 3), 0, 0, 0,
   4 + (7 <<< 3), 0, 4 + (5 <<< 3), 0, 5 + (9 <<< 3),
   0, 0, 0, 0, 0, 0, 0, 0,
   0, 0, 0, 0, 0, 0, 0, 5 + (10 <<< 3)]

/-- `us_hcode` (32 entries). -/
def us_hcode : List Nat :=
  [1 + (1 <<< 3), 2 + (0 <<< 3), 0, 3 + (2 <<< 3), 0, 0, 0, 5 + (3 <<< 3),
   0, 0, 0, 0, 0, 0, 0, 5 + (5 <<< 3),
   0, 0, 0, 0, 0, 0, 0, 5 + (4 <<< 3),
   0, 0, 0, 0, 0, 0, 0, 5 + (6 <<< 3)]

def ESCAPE_MARKER : Nat := 0x2A

def TERM_CODE : Nat := 0x37C0
def DICT_CODE : Nat := 0x0000
def DICT_CODE_LEN : Nat := 5
def RPT_CODE_TASMOTA : Nat := 0x3780
def RPT_CODE_TASMOTA_LEN : Nat := 10
def BACK2_STATE1_CODE : Nat := 0x2000
def BACK2_STATE1_CODE_LEN : Nat := 4
def LF_CODE : Nat := 0x3700
def LF_CODE_LEN : Nat := 9
def TAB_CODE : Nat := 0x2400
def TAB_CODE_LEN : Nat := 7
def ALL_UPPER_CODE : Nat := 0x2200
def ALL_UPPER_CODE_LEN : Nat := 8
def SW2_STATE2_CODE : Nat := 0x3800
def SW2_STATE2_CODE_LEN : Nat := 7
def ST2_SPC_CODE : Nat := 0x3B80
def ST2_SPC_CODE_LEN : Nat := 11
def BIN_CODE_TASMOTA : Nat := 0x8000
def BIN_CODE_TASMOTA_LEN : Nat := 3

def NICE_LEN : Nat := 5

/-- `mask` table of `append_bits`. -/
def bitmask : List Nat := [0x80, 0xC0, 0xE0, 0xF0, 0xF8, 0xFC, 0xFE, 0xFF]

/-- The `while clen > 0` loop of `append_bits`; `fuel ≥ clen` iterations
suffice since `clen` shrinks by `blen ≥ 1` every round. -/
def append_bits_loop (fuel : Nat) (out : UBuf) (ol code clen : Nat) :
    UBuf × Nat :=
  match fuel with
  | 0 => (out, ol)
  | fuel + 1 =>
      if clen = 0 then (out, ol)
      else
        let cur_bit := ol % 8
        let blen := if clen > 8 then 8 else clen
        let a_byte := ((code >>> 8) &&& bitmask.getD (blen - 1) 0) >>> cur_bit
        let blen := if blen + cur_bit > 8 then 8 - cur_bit else blen
        let out := if cur_bit = 0 then ubSet out (ol / 8) a_byte
                   else ubSet out (ol / 8) (ubGet out (ol / 8) ||| a_byte)
        let code := code <<< blen
        let ol := ol + blen
        let (out, ol) :=
          if ol % 8 = 0 then
            -- a full byte was completed: escape literal 0x00 / marker bytes
            let last_c := ubGet out (ol / 8 - 1)
            if last_c = 0 ∨ last_c = ESCAPE_MARKER then
              (ubSet (ubSet out (ol / 8) (1 + last_c)) (ol / 8 - 1) ESCAPE_MARKER,
               ol + 8)
            else (out, ol)
          else (out, ol)
        append_bits_loop fuel out ol code (clen - blen)

/-- `append_bits(out, ol, code, clen, state)`: in state 2, codes carrying the
`0x1C` switch prefix drop it first. -/
def append_bits (out : UBuf) (ol code clen state : Nat) : UBuf × Nat :=
  let (code, clen) :=
    if state = SHX_STATE_2 ∧ code >>> 9 = 0x1C then (code <<< 7, clen - 7)
    else (code, clen)
  append_bits_loop clen out ol code clen

/-- `codes` / `bit_len` tables of `encodeCount`, zipped. -/
def count_codes : List (Nat × Nat) :=
  [(0x82, 5), (0xC3, 7), (0xE5, 9), (0xED, 12), (0xF5, 16)]

/-- The range-selection loop of `encodeCount`. -/
def encodeCount_loop (out : UBuf) (ol count till base : Nat) :
    List (Nat × Nat) → UBuf × Nat
  | [] => (out, ol)
  | (codes_i, bit_len_i) :: rest =>
      let till := till + (1 <<< bit_len_i)
      if count < till then
        let (out, ol) := append_bits out ol ((codes_i &&& 0xF8) <<< 8) (codes_i &&& 0x07) 1
        append_bits out ol ((count - base) <<< (16 - bit_len_i)) bit_len_i 1
      else
        encodeCount_loop out ol count till till rest

/-- `encodeCount(out, ol, count)`. -/
def encodeCount (out : UBuf) (ol count : Nat) : UBuf × Nat :=
  encodeCount_loop out ol count 0 0 count_codes

/-- The inner `k` scan of `matchOccurance`: extend the match while
`k < len_ and j + k - l_ < l_` and bytes agree; `fuel ≥ len_` suffices.
(The fuel recursion is spelt with `Nat.rec` so that evaluation peels one
fuel unit per executed iteration.) -/
def matchOcc_kloop (inn : UBuf) (len_ l_ j : Nat) (fuel k : Nat) : Nat :=
  Nat.rec (motive := fun _ => Nat → Nat) (fun k => k)
    (fun _ ih k =>
      if k < len_ ∧ j + k - l_ < l_ then
        if ubGet inn k ≠ ubGet inn (j + k - l_) then k
        else ih (k + 1)
      else k)
    fuel k

/-- One iteration of the outer `j` scan of `matchOccurance`: run the inner
`k` scan at position `j`, and keep the `(longest_len, longest_dist)` pair
updated when the match is at least `NICE_LEN` long and beats the best one. -/
def matchOcc_jstep (inn : UBuf) (len_ l_ j a b : Nat) : Nat × Nat :=
  let k := matchOcc_kloop inn len_ l_ j len_ l_
  if k - l_ > NICE_LEN - 1 then
    let match_len := k - l_ - NICE_LEN
    let match_dist := l_ - j - NICE_LEN + 1
    if match_len > a then (match_len, match_dist) else (a, b)
  else (a, b)

/-- The outer `j` scan of `matchOccurance`, from `l_ - NICE_LEN` down to 0
(the source's `while j >= 0` with `j` an `int`; it is entered only when
`l_ >= NICE_LEN`, see `matchOccurance_search`). -/
def matchOcc_jloop (inn : UBuf) (len_ l_ : Nat) (j : Nat)
    (longest_len longest_dist : Nat) : Nat × Nat :=
  Nat.rec (motive := fun _ => Nat → Nat → Nat × Nat)
    (fun a b => matchOcc_jstep inn len_ l_ 0 a b)
    (fun j ih a b =>
      match matchOcc_jstep inn len_ l_ (j + 1) a b with
      | (a', b') => ih a' b')
    j longest_len longest_dist

/-- The search half of `matchOccurance`: `(longest_len, longest_dist)`,
`(0, 0)` when no match of at least `NICE_LEN` bytes exists. -/
def matchOccurance_search (inn : UBuf) (len_ l_ : Nat) : Nat × Nat :=
  if l_ < NICE_LEN then (0, 0)
  else matchOcc_jloop inn len_ l_ (l_ - NICE_LEN) 0 0

/-- The emit half of `matchOccurance`: on a hit, fall back to state 1 if
needed, emit `DICT_CODE` and the two counts, and advance `l_`; the returned
Boolean is the source's sign bit on the returned `l` (`True` for the
positive, match-found return). -/
def matchOccurance (inn : UBuf) (len_ l_ : Nat) (out : UBuf)
    (ol state : Nat) (is_all_upper : Bool) :
    Bool × Nat × UBuf × Nat × Nat × Bool :=
  let (longest_len, longest_dist) := matchOccurance_search inn len_ l_
  if longest_len ≠ 0 then
    let (state, is_all_upper, out, ol) :=
      if state = SHX_STATE_2 ∨ is_all_upper then
        let (out, ol) := append_bits out ol BACK2_STATE1_CODE BACK2_STATE1_CODE_LEN SHX_STATE_1
        (SHX_STATE_1, false, out, ol)
      else (state, is_all_upper, out, ol)
    let (out, ol) := append_bits out ol DICT_CODE DICT_CODE_LEN 1
    let (out, ol) := encodeCount out ol longest_len
    let (out, ol) := encodeCount out ol longest_dist
    (true, l_ + longest_len + NICE_LEN - 1, out, ol, state, is_all_upper)
  else
    (false, l_, out, ol, state, is_all_upper)

/-- The repeat-run scan `while rpt_count < len_ and inn[rpt_count] == c_in`;
`fuel ≥ len_ - rpt_count` suffices. -/
def rpt_scan (inn : UBuf) (len_ c_in : Nat) (fuel rpt_count : Nat) : Nat :=
  match fuel with
  | 0 => rpt_count
  | fuel + 1 =>
      if rpt_count < len_ ∧ ubGet inn rpt_count = c_in then
        rpt_scan inn len_ c_in fuel (rpt_count + 1)
      else rpt_count

/-- The upper-case look-ahead `ll = l+5; while l <= ll < len_: ...; ll -= 1`
of `compress`, tracked as `ll + 1` so that the final comparison
`ll == l - 1` (which may reach `-1`) becomes `llp1 == l`;
`fuel ≥ llp1` suffices. -/
def caps_lookahead (inn : UBuf) (len_ l : Nat) (fuel llp1 : Nat) : Nat :=
  match fuel with
  | 0 => llp1
  | fuel + 1 =>
      if l < llp1 ∧ llp1 ≤ len_ then
        if ubGet inn (llp1 - 1) < 65 ∨ ubGet inn (llp1 - 1) > 90 then llp1
        else caps_lookahead inn len_ l fuel (llp1 - 1)
      else llp1

/-- The main `while l < len_` loop of `compress` plus the trailing
`TERM_CODE` padding; each iteration advances `l` by at least one, so
`fuel = len_ + 1` is always enough (the fuel sentinel `-2` is unreachable).
Python `int` subtractions in guards (`len_ - 4`, `len_ - NICE_LEN + 1`) are
taken over `Int`. -/
def compress_loop (inn : UBuf) (len_ len_out : Nat) (fuel : Nat)
    (out : UBuf) (ol state : Nat) (is_all_upper : Bool) (l : Nat) :
    Int × UBuf :=
  match fuel with
  | 0 => (-2, out)
  | fuel + 1 =>
      if l ≥ len_ then
        let bits := ol % 8
        let (out, ol) :=
          if bits ≠ 0 then append_bits out ol TERM_CODE (8 - bits) 1 else (out, ol)
        (((ol + 7) / 8 : Nat), out)
      else
        let c_in := ubGet inn l
        -- repeated-character run (`if l and l < len_ - 4`)
        if l ≠ 0 ∧ (l : Int) < (len_ : Int) - 4 ∧
            c_in = ubGet inn (l - 1) ∧ c_in = ubGet inn (l + 1) ∧
            c_in = ubGet inn (l + 2) ∧ c_in = ubGet inn (l + 3) then
          let rpt_count := rpt_scan inn len_ c_in len_ (l + 4) - l
          let (state, is_all_upper, out, ol) :=
            if state = SHX_STATE_2 ∨ is_all_upper then
              let (out, ol) :=
                append_bits out ol BACK2_STATE1_CODE BACK2_STATE1_CODE_LEN SHX_STATE_1
              (SHX_STATE_1, false, out, ol)
            else (state, is_all_upper, out, ol)
          let (out, ol) := append_bits out ol RPT_CODE_TASMOTA RPT_CODE_TASMOTA_LEN 1
          let (out, ol) := encodeCount out ol (rpt_count - 4)
          compress_loop inn len_ len_out fuel out ol state is_all_upper (l + rpt_count)
        else
          -- dictionary back-reference (`if l < (len_ - NICE_LEN + 1)`)
          let (matched, l, out, ol, state, is_all_upper) :=
            if (l : Int) < (len_ : Int) - (NICE_LEN : Int) + 1 then
              matchOccurance inn len_ l out ol state is_all_upper
            else (false, l, out, ol, state, is_all_upper)
          if matched then
            compress_loop inn len_ len_out fuel out ol state is_all_upper (l + 1)
          else
            let (state, out, ol) :=
              if state = SHX_STATE_2 then
                if (32 ≤ c_in ∧ c_in ≤ 64) ∨ (91 ≤ c_in ∧ c_in ≤ 96) ∨
                    (123 ≤ c_in ∧ c_in ≤ 126) then (state, out, ol)
                else
                  let (out, ol) :=
                    append_bits out ol BACK2_STATE1_CODE BACK2_STATE1_CODE_LEN SHX_STATE_1
                  (SHX_STATE_1, out, ol)
              else (state, out, ol)
            let is_upper := 65 ≤ c_in ∧ c_in ≤ 90
            let (is_all_upper, out, ol) :=
              if ¬is_upper ∧ is_all_upper then
                let (out, ol) :=
                  append_bits out ol BACK2_STATE1_CODE BACK2_STATE1_CODE_LEN state
                (false, out, ol)
              else (is_all_upper, out, ol)
            let (out, ol, state, is_all_upper) :=
              if 32 ≤ c_in ∧ c_in ≤ 126 then
                let (is_all_upper, out, ol) :=
                  if is_upper ∧ ¬is_all_upper then
                    let llp1 := caps_lookahead inn len_ l (l + 6) (l + 6)
                    if llp1 = l then
                      let (out, ol) :=
                        append_bits out ol ALL_UPPER_CODE ALL_UPPER_CODE_LEN state
                      (true, out, ol)
                    else (is_all_upper, out, ol)
                  else (is_all_upper, out, ol)
                let (state, out, ol) :=
                  if state = SHX_STATE_1 ∧ 48 ≤ c_in ∧ c_in ≤ 57 then
                    let (out, ol) :=
                      append_bits out ol SW2_STATE2_CODE SW2_STATE2_CODE_LEN state
                    (SHX_STATE_2, out, ol)
                  else (state, out, ol)
                let c_in := c_in - 32
                let c_in := if is_all_upper ∧ is_upper then c_in + 32 else c_in
                if c_in = 0 ∧ state = SHX_STATE_2 then
                  let (out, ol) := append_bits out ol ST2_SPC_CODE ST2_SPC_CODE_LEN state
                  (out, ol, state, is_all_upper)
                else
                  let cl := cl_95.getD c_in 0
                  let cl_code := cl &&& 0xFFF0
                  let cl_len := cl &&& 0x000F
                  let cl_code := if cl_len = 13 then cl_code >>> 1 else cl_code
                  let (out, ol) := append_bits out ol cl_code cl_len state
                  (out, ol, state, is_all_upper)
              else if c_in = 10 then
                let (out, ol) := append_bits out ol LF_CODE LF_CODE_LEN state
                (out, ol, state, is_all_upper)
              else
                -- the source's `elif c_in == '\t'` compares an int to a str
                -- and is always False in Python 3; TAB bytes take this
                -- binary-escape branch
                let (out, ol) :=
                  append_bits out ol BIN_CODE_TASMOTA BIN_CODE_TASMOTA_LEN state
                let (out, ol) := encodeCount out ol ((255 - c_in) &&& 0xFF)
                (out, ol, state, is_all_upper)
            if ((ol / 8 : Nat) : Int) ≥ (len_out : Int) - 4 then (-1, out)
            else compress_loop inn len_ len_out fuel out ol state is_all_upper (l + 1)

/-- `compress(inn, len_, out, len_out)`: returns the compressed byte count
(or -1 on output overflow) together with the output buffer. -/
def compress (inn : UBuf) (len_ : Nat) (out : UBuf) (len_out : Nat) :
    Int × UBuf :=
  compress_loop inn len_ len_out (len_ + 1) out 0 SHX_STATE_1 false 0

/-- `getBitVal(inn, bit_no, count)`: bit `bit_no` of the stream (escaped
bytes following a marker read one less), scaled by `1 << count`. -/
def getBitVal (inn : UBuf) (bit_no count : Nat) : Nat :=
  let c_in := ubGet inn (bit_no >>> 3)
  let c_in :=
    if bit_no >>> 3 ≠ 0 ∧ ubGet inn (bit_no >>> 3 - 1) = ESCAPE_MARKER then c_in - 1
    else c_in
  if c_in &&& (0x80 >>> (bit_no % 8)) ≠ 0 then 1 <<< count else 0

/-- The `while count < 5` loop of `getCodeIdx`; falling out after five
iterations returns `(1, bit_no_p)` like the source. -/
def getCodeIdx_loop (code_type : List Nat) (inn : UBuf) (len_ : Nat) :
    Nat → Nat → Nat → Nat → Int × Nat
  | 0, _, _, bit_no_p => (1, bit_no_p)
  | fuel + 1, code, count, bit_no_p =>
      if bit_no_p ≥ len_ then (-1, bit_no_p)
      else
        let bit_no_p :=
          if ubGet inn (bit_no_p >>> 3) = ESCAPE_MARKER then bit_no_p + 8
          else bit_no_p
        if bit_no_p ≥ len_ then (-1, bit_no_p)
        else
          let code := code + getBitVal inn bit_no_p count
          let bit_no_p := bit_no_p + 1
          let count := count + 1
          let code_type_code := code_type.getD code 0
          if code_type_code ≠ 0 ∧ code_type_code &&& 0x07 = count then
            (((code_type_code >>> 3 : Nat) : Int), bit_no_p)
          else getCodeIdx_loop code_type inn len_ fuel code count bit_no_p

/-- `getCodeIdx(code_type, inn, len_, bit_no_p)`. -/
def getCodeIdx (code_type : List Nat) (inn : UBuf) (len_ bit_no_p : Nat) :
    Int × Nat :=
  getCodeIdx_loop code_type inn len_ 5 0 0 bit_no_p

/-- `getNumFromBits(inn, bit_no_p, count)` (the loop decrements `count`
before using it as the `getBitVal` weight). -/
def getNumFromBits (inn : UBuf) (ret bit_no_p : Nat) : Nat → Nat × Nat
  | 0 => (ret, bit_no_p)
  | count + 1 =>
      let bit_no_p :=
        if ubGet inn (bit_no_p >>> 3) = ESCAPE_MARKER then bit_no_p + 8
        else bit_no_p
      let ret := ret + getBitVal inn bit_no_p count
      getNumFromBits inn ret (bit_no_p + 1) count

/-- `bit_len[i]` (the second component of the `codes`/`bit_len` pair). -/
def bit_len_at (i : Nat) : Nat := (count_codes.getD i (0, 0)).2

/-- The base accumulated by `readCount`'s `while i <= idx` loop:
`sum(1 << bit_len[i] for i in range(idx))`. -/
def readCount_base : Nat → Nat
  | 0 => 0
  | i + 1 => readCount_base i + (1 <<< bit_len_at i)

/-- `readCount(inn, bit_no_p, len_)`. -/
def readCount (inn : UBuf) (bit_no_p len_ : Nat) : Nat × Nat :=
  let (idx, bit_no_p) := getCodeIdx us_hcode inn len_ bit_no_p
  let idx := if idx ≥ 1 then idx - 1 else idx
  if idx ≥ 5 ∨ idx < 0 then (0, bit_no_p)
  else
    let i := idx.toNat
    let (count, bit_no_p) := getNumFromBits inn 0 bit_no_p (bit_len_at i)
    (count + readCount_base i, bit_no_p)

/-- The byte-by-byte (possibly self-overlapping) copy of `decodeRepeat`:
`for i in range(dict_len): out[ol + i] = out[ol - dist + i]`. -/
def decodeRepeat_copy (out : UBuf) (ol dist i : Nat) : Nat → UBuf
  | 0 => out
  | remaining + 1 =>
      decodeRepeat_copy (ubSet out (ol + i) (ubGet out (ol - dist + i)))
        ol dist (i + 1) remaining

/-- `decodeRepeat(inn, len_, out, ol, bit_no)`: returns `(ol, out, bit_no)`. -/
def decodeRepeat (inn : UBuf) (len_ : Nat) (out : UBuf) (ol bit_no : Nat) :
    Nat × UBuf × Nat :=
  let (dict_len, bit_no) := readCount inn bit_no len_
  let dict_len := dict_len + NICE_LEN
  let (dist, bit_no) := readCount inn bit_no len_
  let dist := dist + NICE_LEN - 1
  let out := decodeRepeat_copy out ol dist 0 dict_len
  (ol + dict_len, out, bit_no)

/-- Result of one iteration of `decompress`'s main loop: continue with the
new state, `break` out of the loop, or return the -1 overflow failure. -/
inductive DecompAction
  | cont (out : UBuf) (ol bit_no : Nat) (dstate : Int) (is_all_upper : Bool)
  | brk (out : UBuf) (ol : Nat)
  | overflow (out : UBuf)

/-- `out[ol] = c; ol += 1; if ol >= len_out: return -1` - the character-emit
tail shared by the plain paths of the decompress loop body. -/
def decompress_emit (len_out : Nat) (out : UBuf) (ol bit_no : Nat)
    (dstate : Int) (is_all_upper : Bool) (c : Nat) : DecompAction :=
  let out := ubSet out ol c
  if ol + 1 ≥ len_out then .overflow out
  else .cont out (ol + 1) bit_no dstate is_all_upper

/-- The `count`-fold repetition write of the RPT branch. -/
def decompress_rpt_write (out : UBuf) (ol rpt_c : Nat) : Nat → UBuf
  | 0 => out
  | count + 1 => decompress_rpt_write (ubSet out ol rpt_c) (ol + 1) rpt_c count

/-- The tail of the decompress loop body, from
`if v == 0 and h == self.SHX_SET1A` on (binary escape, dictionary repeat,
character lookup, LF, RPT and TERM handling). -/
def decompress_tail (inn : UBuf) (len_ len_out : Nat) (out : UBuf)
    (ol bit_no : Nat) (dstate : Int) (is_all_upper : Bool) (v h : Int)
    (is_upper : Bool) : DecompAction :=
  if v = 0 ∧ h = SHX_SET1A then
    if is_upper then
      let (temp, bit_no) := readCount inn bit_no len_
      .cont (ubSet out ol (255 - temp)) (ol + 1) bit_no dstate is_all_upper
    else
      let (ol, out, bit_no) := decodeRepeat inn len_ out ol bit_no
      .cont out ol bit_no dstate is_all_upper
  else if h = SHX_SET1 ∧ v = 3 then
    -- was Unicode, now Binary
    let (temp, bit_no) := readCount inn bit_no len_
    .cont (ubSet out ol (255 - temp)) (ol + 1) bit_no dstate is_all_upper
  else
    let c := if h < 7 ∧ v < 11 then (sets.getD h.toNat []).getD v.toNat 0 else 0
    if 97 ≤ c ∧ c ≤ 122 then
      let c := if is_upper then c - 32 else c
      decompress_emit len_out out ol bit_no dstate is_all_upper c
    else
      let c := if is_upper ∧ dstate = SHX_SET1 ∧ v = 1 then 9 else c
      if h = SHX_SET1B then
        if v = 8 then
          -- was LF or RPT, now only LF
          .cont (ubSet out ol 10) (ol + 1) bit_no dstate is_all_upper
        else if v = 9 then
          -- was CRLF, now RPT
          let (count, bit_no) := readCount inn bit_no len_
          let count := count + 4
          if ol + count ≥ len_out then .overflow out
          else
            let rpt_c := ubGet out (ol - 1)
            let out := decompress_rpt_write out ol rpt_c count
            .cont out (ol + count) bit_no dstate is_all_upper
        else if v = 10 then
          -- TERM, stop decoding
          .brk out ol
        else decompress_emit len_out out ol bit_no dstate is_all_upper c
      else decompress_emit len_out out ol bit_no dstate is_all_upper c

/-- The `if h != self.SHX_SET1` re-read of a `vCode` after a set switch,
followed by the common tail. -/
def decompress_after_switch (inn : UBuf) (len_ len_out : Nat) (out : UBuf)
    (ol bit_no : Nat) (dstate : Int) (is_all_upper : Bool) (v h : Int)
    (is_upper : Bool) : DecompAction :=
  if h ≠ SHX_SET1 then
    let (v, bit_no) := getCodeIdx us_vcode inn len_ bit_no
    if v < 0 then .brk out ol
    else decompress_tail inn len_ len_out out ol bit_no dstate is_all_upper v h is_upper
  else decompress_tail inn len_ len_out out ol bit_no dstate is_all_upper v h is_upper

/-- One full iteration of the `while bit_no < len_` loop of `decompress`
(assuming `bit_no < len_`). -/
def decompress_step (inn : UBuf) (len_ len_out : Nat) (out : UBuf)
    (ol bit_no : Nat) (dstate : Int) (is_all_upper : Bool) : DecompAction :=
  let is_upper := is_all_upper
  let (v, bit_no) := getCodeIdx us_vcode inn len_ bit_no
  if v < 0 then .brk out ol
  else
    let h := dstate
    if v = 0 then
      let (h, bit_no) := getCodeIdx us_hcode inn len_ bit_no
      if h < 0 then .brk out ol
      else if h = SHX_SET1 then
        if dstate = SHX_SET1 then
          if is_all_upper then
            -- CapsLock off
            .cont out ol bit_no dstate false
          else
            let (v, bit_no) := getCodeIdx us_vcode inn len_ bit_no
            if v < 0 then .brk out ol
            else if v = 0 then
              let (h, bit_no) := getCodeIdx us_hcode inn len_ bit_no
              if h < 0 then .brk out ol
              else if h = SHX_SET1 then
                -- double Set1 switch: CapsLock on
                .cont out ol bit_no dstate true
              else
                decompress_after_switch inn len_ len_out out ol bit_no dstate
                  is_all_upper v h true
            else
              decompress_after_switch inn len_ len_out out ol bit_no dstate
                is_all_upper v h true
        else
          -- switch back to Set1
          .cont out ol bit_no SHX_SET1 is_all_upper
      else if h = SHX_SET2 then
        .cont out ol bit_no (if dstate = SHX_SET1 then SHX_SET2 else dstate)
          is_all_upper
      else
        decompress_after_switch inn len_ len_out out ol bit_no dstate
          is_all_upper v h is_upper
    else
      -- `v != 0`: no switch handling, straight to the common tail
      decompress_tail inn len_ len_out out ol bit_no dstate is_all_upper v h
        is_upper

/-- The decompress main loop; every continuing iteration advances `bit_no`
by at least one, so `fuel = len_ + 1` (bits) is always enough. -/
def decompress_loop (inn : UBuf) (len_ len_out : Nat) (fuel : Nat)
    (out : UBuf) (ol bit_no : Nat) (dstate : Int) (is_all_upper : Bool) :
    Int × UBuf :=
  Nat.rec (motive := fun _ => UBuf → Nat → Nat → Int → Bool → Int × UBuf)
    (fun out _ _ _ _ => (-2, out))
    (fun _ ih out ol bit_no dstate is_all_upper =>
      if ¬bit_no < len_ then ((ol : Nat), out)
      else
        match decompress_step inn len_ len_out out ol bit_no dstate is_all_upper with
        | .cont out ol bit_no dstate is_all_upper =>
            ih out ol bit_no dstate is_all_upper
        | .brk out ol => ((ol : Nat), out)
        | .overflow out => (-1, out))
    fuel out ol bit_no dstate is_all_upper

/-- `decompress(inn, len_, out, len_out)`: returns the decompressed length
(or -1 on output overflow) and the output buffer (`len_` is converted to
bits, `out[0]` is zeroed first). -/
def decompress (inn : UBuf) (len_ : Nat) (out : UBuf) (len_out : Nat) :
    Int × UBuf :=
  let len_bits := len_ <<< 3
  let out := ubSet out 0 0
  decompress_loop inn len_bits len_out (len_bits + 1) out 0 0 SHX_SET1 false

/-- The spec's round-trip composition `decompress(compress(x))` with
caller-chosen output capacities: compress `x` into a zeroed buffer of
`clen` bytes, feed the compressed bytes to `decompress` with a zeroed
buffer of `dlen` bytes; `none` when either side signals overflow. -/
def unishox_roundtrip (x : List Nat) (clen dlen : Nat) : Option (List Nat) :=
  let (res, cbuf) := compress (ofBytes x) x.length 0 clen
  if res < 0 then none
  else
    let cbytes := cbuf % 256 ^ res.toNat
    let (dres, dbuf) := decompress cbytes res.toNat 0 dlen
    if dres < 0 then none
    else some (toBytes dbuf dres.toNat)

end Unishox

/-- One step of a plain linear congruential generator (glibc constants),
used to fix a concrete 200-byte pseudo-random test vector. -/
def lcg_next (x : Nat) : Nat := (x * 1103515245 + 12345) % 2 ^ 31

/-- `n` pseudo-random bytes from seed `x` (bits 16-23 of each LCG state). -/
def lcg_bytes (x : Nat) : Nat → List Nat
  | 0 => []
  | n + 1 =>
      let x' := lcg_next x
      ((x' >>> 16) &&& 0xFF) :: lcg_bytes x' n

/-- A concrete string with an embedded substring (`"abcde"`) repeated five
times, for the compression round-trip test vector. -/
def rpt_substring_input : List Nat :=
  [97, 98, 99, 100, 101, 97, 98, 99, 100, 101, 97, 98, 99, 100, 101,
   97, 98, 99, 100, 101, 97, 98, 99, 100, 101, 88, 89, 90]

/-- The first byte address a `set_field` write can touch: `baseaddr` for
indexed strings (no address offset is applied), `baseaddr + addroffset`
otherwise; the written region spans `calcsize` bytes from there. -/
def field_write_lb (f : ScalarFieldDef) (addroffset : Nat) : Nat :=
  match f.strindex with
  | some _ => f.baseaddr
  | none => f.baseaddr + addroffset

/-- Checks that every entry of a restore mapping either bears one of the
reserved field names or, per the template, writes a byte region that misses
address `a` (the schema invariant of non-overlapping sibling fields,
instantiated at the address of interest). -/
def restore_write_misses (template : List (String × ScalarFieldDef)) (a : Nat)
    (jsonconfig : List (String × FieldValue)) : Bool :=
  jsonconfig.all (fun nd =>
    match template.lookup nd.1 with
    | some fd =>
        decide (nd.1 ∈ reservedNames) || decide (a < field_write_lb fd 0) ||
          decide (field_write_lb fd 0 + fd.format.calcsize ≤ a)
    | none => true)

/-! # Theorems -/

instance : IsTotal SettingsEntry (fun a b => b.1 ≤ a.1) :=
  ⟨fun a b => Nat.le_total b.1 a.1⟩

instance : IsTrans SettingsEntry (fun a b => b.1 ≤ a.1) :=
  ⟨fun _ _ _ hab hbc => le_trans hbc hab⟩

/-- In a list sorted by descending version, the first entry whose version
does not exceed `v` has the greatest such version. -/
theorem find?_max_of_sorted_desc (v : Nat) :
    ∀ l : List SettingsEntry, l.Sorted (fun a b => b.1 ≤ a.1) →
      ∀ e, l.find? (fun cfg => v ≥ cfg.1) = some e →
        ∀ f ∈ l, f.1 ≤ v → f.1 ≤ e.1 := by
  intro l
  induction l with
  | nil => intro _ e he; simp at he
  | cons a t ih =>
      intro hs e he f hf hfv
      rw [List.sorted_cons] at hs
      by_cases ha : v ≥ a.1
      · rw [List.find?_cons_of_pos _ (by simpa using ha)] at he
        obtain rfl : a = e := Option.some.inj he
        rcases List.mem_cons.mp hf with rfl | hmem
        · exact le_refl _
        · exact hs.1 f hmem
      · rw [List.find?_cons_of_neg _ (by simpa using ha)] at he
        rcases List.mem_cons.mp hf with rfl | hmem
        · exact absurd hfv ha
        · exact ih hs.2 e he f hmem hfv

/-! ## Frame lemmas for the scalar write path -/

theorem bufGet_set_ne (l : Buffer) (i j v : Nat) (h : j ≠ i) :
    bufGet (l.set j v) i = bufGet l i := by
  simp [bufGet, List.getD_eq_getElem?_getD, List.getElem?_set_ne h]

theorem pack_le_length (size : Nat) : ∀ (dobj : Buffer) (addr v : Nat),
    (pack_le size dobj addr v).length = dobj.length := by
  induction size with
  | zero => intro dobj addr v; rfl
  | succ n ih =>
      intro dobj addr v
      rw [pack_le, ih]
      simp

theorem pack_le_frame (size : Nat) : ∀ (dobj : Buffer) (addr v i : Nat),
    i < addr ∨ addr + size ≤ i →
    bufGet (pack_le size dobj addr v) i = bufGet dobj i := by
  induction size with
  | zero => intro dobj addr v i _; rfl
  | succ n ih =>
      intro dobj addr v i h
      rw [pack_le, ih _ _ _ _ (by omega)]
      exact bufGet_set_ne _ _ _ _ (by omega)


theorem bufGet_lt (l : Buffer) (i : Nat) (hb : ∀ x ∈ l, x < 256) :
    bufGet l i < 256 := by
  unfold bufGet
  rw [List.getD_eq_getElem?_getD]
  rcases h : l[i]? with _ | v
  · simp
  · simpa using hb v (List.getElem?_mem h)

theorem unpack_le_lt (size : Nat) : ∀ (dobj : Buffer) (addr : Nat),
    (∀ x ∈ dobj, x < 256) → unpack_le size dobj addr < 2 ^ (8 * size) := by
  induction size with
  | zero => intro dobj addr _; simp [unpack_le]
  | succ n ih =>
      intro dobj addr hb
      rw [unpack_le]
      have h1 := bufGet_lt dobj addr hb
      have h2 := ih dobj (addr + 1) hb
      have h3 : (2 : Nat) ^ (8 * (n + 1)) = 2 ^ (8 * n) * 256 := by
        rw [Nat.mul_succ, pow_add]; norm_num
      omega

theorem pack_bytes_length (bs : List Nat) : ∀ (dobj : Buffer) (addr : Nat),
    (pack_bytes dobj addr bs).length = dobj.length := by
  induction bs with
  | nil => intro dobj addr; rfl
  | cons b t ih =>
      intro dobj addr
      rw [pack_bytes, ih]
      simp

theorem pack_bytes_frame (bs : List Nat) : ∀ (dobj : Buffer) (addr i : Nat),
    i < addr ∨ addr + bs.length ≤ i →
    bufGet (pack_bytes dobj addr bs) i = bufGet dobj i := by
  induction bs with
  | nil => intro dobj addr i _; rfl
  | cons b t ih =>
      intro dobj addr i h
      simp only [List.length_cons] at h
      rw [pack_bytes, ih _ _ _ (by omega)]
      exact bufGet_set_ne _ _ _ _ (by omega)

theorem pack_str_frame (count : Nat) (dobj : Buffer) (addr : Nat)
    (value : List Nat) (i : Nat) (h : i < addr ∨ addr + count ≤ i) :
    bufGet (pack_str count dobj addr value) i = bufGet dobj i := by
  unfold pack_str
  apply pack_bytes_frame
  have hl : (value.take count ++ List.replicate (count - value.length) 0).length
      = count := by
    simp [List.length_take]
    omega
  rw [hl]
  exact h

theorem set_int_elem_frame (signed : Bool) (size : Nat) (dobj : Buffer)
    (addr : Nat) (v : Int) (i : Nat) (h : i < addr ∨ addr + size ≤ i) :
    bufGet (set_int_elem signed size dobj addr v).1 i = bufGet dobj i := by
  unfold set_int_elem
  dsimp only
  repeat' split
  all_goals first
    | rfl
    | exact pack_le_frame size _ _ _ _ h

theorem set_int_elems_frame (signed : Bool) (size : Nat) : ∀ (count : Nat)
    (dobj : Buffer) (addr : Nat) (v : Int) (i : Nat),
    i < addr ∨ addr + size * count ≤ i →
    bufGet (set_int_elems signed size dobj addr v count).1 i = bufGet dobj i := by
  intro count
  induction count with
  | zero => intro dobj addr v i _; rfl
  | succ c ih =>
      intro dobj addr v i h
      rw [Nat.mul_succ] at h
      rw [set_int_elems]
      dsimp only
      rw [ih _ _ _ _ (by omega)]
      exact set_int_elem_frame signed size _ _ _ _ (by omega)

theorem set_fieldvalue_frame (f : ScalarFieldDef) (dobj : Buffer) (addr : Nat)
    (value : FieldValue) (i : Nat)
    (h : i < addr ∨ addr + f.format.calcsize ≤ i) :
    bufGet (set_fieldvalue f dobj addr value).1 i = bufGet dobj i := by
  rcases hf : f.format with ⟨size, count⟩ | ⟨size, count⟩ | count <;>
    rcases value with v | s <;>
    rw [hf] at h <;>
    simp only [FieldFormat.calcsize] at h <;>
    simp only [set_fieldvalue, hf] <;>
    first
      | rfl
      | exact set_int_elems_frame _ _ _ dobj addr _ i h
      | exact pack_str_frame _ dobj addr _ i h

theorem write_guarded_frame (dobj : Buffer) (fieldname : String)
    (f : ScalarFieldDef) (value : FieldValue) (addroffset i : Nat)
    (h : i < field_write_lb f addroffset ∨
      field_write_lb f addroffset + f.format.calcsize ≤ i) :
    bufGet (write_guarded dobj fieldname f value addroffset).dobj i =
      bufGet dobj i := by
  unfold write_guarded
  by_cases hres : fieldname ∈ reservedNames
  · rw [if_pos hres]
  · rw [if_neg hres]
    unfold field_write_lb at h
    rcases hs : f.strindex with _ | si <;> rw [hs] at h <;> simp only []
    · exact set_fieldvalue_frame f dobj _ value i h
    · exact set_fieldvalue_frame f dobj _ value i h

theorem set_field_int_frame (dobj : Buffer) (fieldname : String)
    (f : ScalarFieldDef) (size : Nat) (rv : Int) (addroffset i : Nat)
    (h : i < field_write_lb f addroffset ∨
      field_write_lb f addroffset + f.format.calcsize ≤ i) :
    bufGet (set_field_int dobj fieldname f size rv addroffset).dobj i =
      bufGet dobj i := by
  unfold set_field_int
  dsimp only
  repeat' split
  all_goals
    first
      | rfl
      | exact write_guarded_frame dobj fieldname f _ addroffset i h

theorem set_field_str_frame (dobj : Buffer) (fieldname : String)
    (f : ScalarFieldDef) (count : Nat) (rs : List Nat) (addroffset set_max i : Nat)
    (h : i < field_write_lb f addroffset ∨
      field_write_lb f addroffset + f.format.calcsize ≤ i) :
    bufGet (set_field_str dobj fieldname f count rs addroffset set_max).dobj i =
      bufGet dobj i := by
  unfold set_field_str
  dsimp only
  repeat' split
  all_goals
    first
      | rfl
      | exact write_guarded_frame dobj fieldname f _ addroffset i h

/-- Frame property of a single scalar `set_field`: only the bytes of the
field's own write region can change. -/
theorem set_field_scalar_frame (dobj : Buffer) (fieldname : String)
    (f : ScalarFieldDef) (restore : FieldValue) (addroffset set_max i : Nat)
    (hw grp : Bool)
    (h : i < field_write_lb f addroffset ∨
      field_write_lb f addroffset + f.format.calcsize ≤ i) :
    bufGet (set_field_scalar dobj fieldname f restore addroffset set_max hw
      grp).dobj i = bufGet dobj i := by
  unfold set_field_scalar
  repeat' split
  all_goals
    first
      | rfl
      | exact set_field_int_frame dobj fieldname f _ _ addroffset i h
      | exact set_field_str_frame dobj fieldname f _ _ addroffset set_max i h

theorem write_guarded_reserved (dobj : Buffer) (fieldname : String)
    (f : ScalarFieldDef) (value : FieldValue) (addroffset : Nat)
    (h : fieldname ∈ reservedNames) :
    (write_guarded dobj fieldname f value addroffset).dobj = dobj := by
  unfold write_guarded
  rw [if_pos h]

/-- A scalar `set_field` on one of the reserved field names never modifies
the buffer, on any path. -/
theorem set_field_scalar_reserved (dobj : Buffer) (fieldname : String)
    (f : ScalarFieldDef) (restore : FieldValue) (addroffset set_max : Nat)
    (hw grp : Bool) (h : fieldname ∈ reservedNames) :
    (set_field_scalar dobj fieldname f restore addroffset set_max hw
      grp).dobj = dobj := by
  unfold set_field_scalar set_field_int set_field_str
  dsimp only
  repeat' split
  all_goals
    first
      | rfl
      | exact write_guarded_reserved _ _ _ _ _ h

/-- C10: implicit frame property of encode.  A scalar `set_field` on any of
the names `cfg_crc`, `cfg_crc32`, `cfg_timestamp` or `_` never modifies the
buffer, even when the restore tree supplies a value for it; consequently,
after the whole restore mapping is applied by `mapping2bin` (the state just
before the final checksum recomputation), every address `a` that each
non-reserved entry's write region misses - in particular each byte of the
reserved fields, given the schema invariant that sibling fields do not
overlap them - holds its pre-encode byte. -/
theorem mapping2bin_reserved_fields_preserved
    (template : List (String × ScalarFieldDef))
    (jsonconfig : List (String × FieldValue)) (set_max : Nat)
    (buffer : Buffer) (a : Nat)
    (h : restore_write_misses template a jsonconfig = true) :
    (∀ (dobj : Buffer) (fieldname : String) (f : ScalarFieldDef)
        (restore : FieldValue) (ao sm : Nat) (hw grp : Bool),
        fieldname ∈ reservedNames →
        (set_field_scalar dobj fieldname f restore ao sm hw grp).dobj = dobj) ∧
    bufGet (mapping2bin_apply template jsonconfig set_max buffer) a =
      bufGet buffer a := by
  refine ⟨fun dobj fieldname f restore ao sm hw grp hres =>
    set_field_scalar_reserved dobj fieldname f restore ao sm hw grp hres, ?_⟩
  induction jsonconfig generalizing buffer with
  | nil => rfl
  | cons nd rest ih =>
      rw [restore_write_misses, List.all_cons, Bool.and_eq_true] at h
      have hstep : mapping2bin_apply template (nd :: rest) set_max buffer =
          mapping2bin_apply template rest set_max
            (match template.lookup nd.1 with
             | some fd => (set_field_scalar buffer nd.1 fd nd.2 0 set_max).dobj
             | none => buffer) := rfl
      rw [hstep, ih _ h.2]
      have hhead := h.1
      cases hl : template.lookup nd.1 with
      | none => rfl
      | some fd =>
          rw [hl] at hhead
          simp only [Bool.or_eq_true, decide_eq_true_eq] at hhead
          show bufGet (set_field_scalar buffer nd.1 fd nd.2 0 set_max).dobj a =
            bufGet buffer a
          rcases hhead with (hres | hmiss) | hmiss
          · rw [set_field_scalar_reserved _ _ _ _ _ _ _ _ hres]
          · exact set_field_scalar_frame buffer nd.1 fd nd.2 0 set_max a true true
              (Or.inl hmiss)
          · exact set_field_scalar_frame buffer nd.1 fd nd.2 0 set_max a true true
              (Or.inr hmiss)

/-- Concrete instantiation of `mapping2bin_reserved_fields_preserved`: a
restore mapping supplying both `cfg_crc32` (reserved, at bytes 8-11) and
`bootcount` (at bytes 0-3) touches none of `cfg_crc32`'s bytes. -/
theorem mapping2bin_reserved_fields_preserved_witness :
    bufGet (mapping2bin_apply
      [("cfg_crc32", { format := .uint 4 1, baseaddr := 8 }),
       ("bootcount", { format := .uint 4 1, baseaddr := 0 })]
      [("cfg_crc32", .int 99), ("bootcount", .int 7)] 21
      (List.replicate 16 1)) 8 = bufGet (List.replicate 16 1) 8 :=
  (mapping2bin_reserved_fields_preserved
    [("cfg_crc32", { format := .uint 4 1, baseaddr := 8 }),
     ("bootcount", { format := .uint 4 1, baseaddr := 0 })]
    [("cfg_crc32", .int 99), ("bootcount", .int 7)] 21
    (List.replicate 16 1) 8 (by decide)).2

/-- C3: schema version resolution.  For every registry and observed version,
`get_config_info` selects a registered entry whose version is the greatest
one not exceeding the observed version (an exact match therefore always
wins); when no registered version is less than or equal to the observed one
the search yields nothing and `get_config_info` exits fatally with the
unsupported-version condition, returning no schema. -/
theorem get_config_info_resolution (settings : List SettingsEntry)
    (version : Nat) :
    (∀ e, get_config_info_search settings version = some e →
        e ∈ settings ∧ e.1 ≤ version ∧
        ∀ f ∈ settings, f.1 ≤ version → f.1 ≤ e.1) ∧
    (get_config_info_search settings version = none ↔
        ∀ f ∈ settings, version < f.1) ∧
    (∀ e, get_config_info_search settings version = some e →
        get_config_info_m settings version = .ok e) ∧
    (get_config_info_search settings version = none →
        get_config_info_m settings version =
          .error ⟨ExitCode.UNSUPPORTED_VERSION, LogType.ERROR, true⟩) := by
  refine ⟨fun e he => ?_, ?_, fun e he => ?_, fun h => ?_⟩
  · refine ⟨?_, ?_, ?_⟩
    · exact (List.mem_insertionSort _).mp (List.mem_of_find?_eq_some he)
    · simpa using List.find?_some he
    · intro f hf hfv
      exact find?_max_of_sorted_desc version _
        (List.sorted_insertionSort _ settings) e he f
        ((List.mem_insertionSort _).mpr hf) hfv
  · rw [get_config_info_search, List.find?_eq_none]
    constructor
    · intro h f hf
      have := h f ((List.mem_insertionSort _).mpr hf)
      simpa [Nat.lt_iff_le_and_ne, Nat.not_le] using this
    · intro h x hx
      have := h x ((List.mem_insertionSort _).mp hx)
      simp only [decide_eq_true_eq]
      omega
  · simp [get_config_info_m, he]
  · simp [get_config_info_m, h]

/-- Concrete instantiation of `get_config_info_resolution`: in the registry
with versions 1 and 5, observed version 3 selects the entry with version 1,
which is registered and does not exceed 3. -/
theorem get_config_info_resolution_witness :
    ((1, 100, 10) : SettingsEntry) ∈
      [((1 : Nat), (100 : Nat), (10 : Nat)), (5, 200, 50)] ∧ 1 ≤ 3 :=
  ⟨((get_config_info_resolution [(1, 100, 10), (5, 200, 50)] 3).1 (1, 100, 10)
      (by decide)).1,
   ((get_config_info_resolution [(1, 100, 10), (5, 200, 50)] 3).1 (1, 100, 10)
      (by decide)).2.1⟩

/-- C9: `validate_value` accepts a proposed value of exactly 0 under every
declared validator - including the predicate `1 <= $ <= 5`, which is false
at 0 - the always-accept-zero rule. -/
theorem validate_value_zero_exemption :
    (∀ validate : Option (Int → Bool), validate_value validate 0 = true) ∧
    (fun v : Int => decide (1 ≤ v ∧ v ≤ 5)) 0 = false ∧
    validate_value (some (fun v : Int => decide (1 ≤ v ∧ v ≤ 5))) 0 = true :=
  ⟨fun _ => rfl, by decide, by decide⟩

/-- C6 counterexample: with a registry holding versions 1, 2, 5 and 9,
resolving observed version 3 selects the entry with version 2 - the
greatest registered version not exceeding 3 - not version 1 as the claim's
expected vector states. -/
theorem schema_resolution_v3_counterexample :
    get_config_info_search
      [(1, 0x1000, 1), (2, 0x1000, 2), (5, 0x1000, 5), (9, 0x1000, 9)] 3 =
      some (2, 0x1000, 2) ∧ (2, 0x1000, 2).1 ≠ 1 := by decide

/-- C6 (amended): for a registry with entries exactly at versions 1, 2, 5
and 9, resolving observed versions 0, 1, 3, 5, 8, 9 and 50 yields:
failure (fatal unsupported-version exit), 1, 2, 5, 5, 9 and 9. -/
theorem schema_resolution_vector :
    get_config_info_m
      [(1, 0x1000, 1), (2, 0x1000, 2), (5, 0x1000, 5), (9, 0x1000, 9)] 0 =
      .error ⟨ExitCode.UNSUPPORTED_VERSION, LogType.ERROR, true⟩ ∧
    get_config_info_search
      [(1, 0x1000, 1), (2, 0x1000, 2), (5, 0x1000, 5), (9, 0x1000, 9)] 1 =
      some (1, 0x1000, 1) ∧
    get_config_info_search
      [(1, 0x1000, 1), (2, 0x1000, 2), (5, 0x1000, 5), (9, 0x1000, 9)] 3 =
      some (2, 0x1000, 2) ∧
    get_config_info_search
      [(1, 0x1000, 1), (2, 0x1000, 2), (5, 0x1000, 5), (9, 0x1000, 9)] 5 =
      some (5, 0x1000, 5) ∧
    get_config_info_search
      [(1, 0x1000, 1), (2, 0x1000, 2), (5, 0x1000, 5), (9, 0x1000, 9)] 8 =
      some (5, 0x1000, 5) ∧
    get_config_info_search
      [(1, 0x1000, 1), (2, 0x1000, 2), (5, 0x1000, 5), (9, 0x1000, 9)] 9 =
      some (9, 0x1000, 9) ∧
    get_config_info_search
      [(1, 0x1000, 1), (2, 0x1000, 2), (5, 0x1000, 5), (9, 0x1000, 9)] 50 =
      some (9, 0x1000, 9) :=
  ⟨rfl, by decide⟩

/-- C8: evaluation of the `bin2mapping` size check.  A recorded size below
the template size exits fatally with `DATA_SIZE_MISMATCH`, as the claim
says; but a recorded size above the template size - which the claim (and
the source's own "# may be processed" comment) says is tolerated with a
warning - also calls `exit_` with `type_=LogType.ERROR` and the default
`doexit=True`, i.e. it terminates the program.  Equal sizes pass. -/
theorem bin2mapping_size_check_eval :
    bin2mapping_size_check 0xFFF 0x1000 =
      some ⟨ExitCode.DATA_SIZE_MISMATCH, LogType.ERROR, true⟩ ∧
    bin2mapping_size_check 0x1001 0x1000 =
      some ⟨ExitCode.DATA_SIZE_MISMATCH, LogType.ERROR, true⟩ ∧
    bin2mapping_size_check 0x1000 0x1000 = none := by decide

/-- C7 counterexample: with the default arguments (`ignorewarning = False`)
a stored CRC32 that differs from the fresh recomputation makes
`bin2mapping` call `exit_` with `doexit = True`: the decode aborts by
default instead of merely warning and returning the tree. -/
theorem crc_mismatch_aborts_by_default :
    bin2mapping_crc_check Args.default [1, 2, 3, 4, 0, 0, 0, 0] 8 (some ()) none
      (get_settingcrc32 [1, 2, 3, 4, 0, 0, 0, 0] + 1) 0 =
      some ⟨ExitCode.DATA_CRC_ERROR, LogType.WARNING, true⟩ := by decide

/-- C7 (amended): a stored CRC32 differing from the fresh recomputation is
reported through `exit_` with status `DATA_CRC_ERROR` and log type
`WARNING` (the CRC32 field is checked in preference to the legacy 16-bit
checksum), and `doexit = not ARGS.ignorewarning`: with the default
`ignorewarning = False` the decode aborts; only under `--ignore-warning`
does it continue (and then still returns the decoded tree). -/
theorem crc_mismatch_check (args : Args) (dobj : Buffer) (ts s32 s16 : Nat)
    (cf : Option Unit) (h : s32 ≠ get_settingcrc32 dobj) :
    bin2mapping_crc_check args dobj ts (some ()) cf s32 s16 =
      some ⟨ExitCode.DATA_CRC_ERROR, LogType.WARNING, !args.ignorewarning⟩ ∧
    (bin2mapping_crc_check Args.default dobj ts (some ()) cf s32 s16).map
      ExitCall.doexit = some true := by
  constructor
  · simp [bin2mapping_crc_check, h]
  · simp [bin2mapping_crc_check, h, Args.default]

/-- Concrete instantiation of `crc_mismatch_check`. -/
theorem crc_mismatch_check_witness :
    bin2mapping_crc_check ⟨true⟩ [1, 2, 3, 4, 0, 0, 0, 0] 8 (some ()) none
      (get_settingcrc32 [1, 2, 3, 4, 0, 0, 0, 0] + 1) 0 =
      some ⟨ExitCode.DATA_CRC_ERROR, LogType.WARNING, !(true : Bool)⟩ ∧
    (bin2mapping_crc_check Args.default [1, 2, 3, 4, 0, 0, 0, 0] 8 (some ()) none
      (get_settingcrc32 [1, 2, 3, 4, 0, 0, 0, 0] + 1) 0).map
      ExitCall.doexit = some true :=
  crc_mismatch_check ⟨true⟩ [1, 2, 3, 4, 0, 0, 0, 0] 8
    (get_settingcrc32 [1, 2, 3, 4, 0, 0, 0, 0] + 1) 0 none (by decide)

/-- C5: indexed-string pool overflow atomicity.  When the pool rejoined
after replacing one slot exceeds the pool field's declared byte capacity
(`get_fieldlength`, i.e. `calcsize`), `set_field` raises the
pool-overflow restore-data error and returns the configuration buffer
completely unmodified - no truncated or partial write is committed. -/
theorem set_field_pool_overflow_atomic (dobj : Buffer) (fieldname : String)
    (f : ScalarFieldDef) (count : Nat) (restorestr : List Nat)
    (addroffset set_max strindex : Nat)
    (hname : ¬fieldname = "$SETTINGVAR") (hro : f.readonly = false)
    (hfmt : f.format = .strf count) (hidx : f.strindex = some strindex)
    (hover : (rejoined_pool dobj f count restorestr (strindex + addroffset)
        set_max).length > f.format.calcsize) :
    set_field_scalar dobj fieldname f (.str restorestr) addroffset set_max =
      ⟨dobj, some "Text pool overflow"⟩ := by
  obtain ⟨fmt, ba, bits, bsh, si, vd, ro⟩ := f
  simp only at hfmt hro hidx hover
  subst hfmt
  subst hro
  subst hidx
  simp [set_field_scalar, set_field_str, hname, hover]

/-- Concrete instantiation of `set_field_pool_overflow_atomic`: a ten-byte
pool holding slots "AAAA" and "BBBB"; replacing slot 0 with an eight-byte
value makes the rejoined pool fourteen bytes long, so the write is refused
and the buffer is untouched. -/
theorem set_field_pool_overflow_atomic_witness :
    set_field_scalar [65, 65, 65, 65, 0, 66, 66, 66, 66, 0] "sta_ssid"
      { format := .strf 10, baseaddr := 0, strindex := some 0 }
      (.str [67, 67, 67, 67, 67, 67, 67, 67]) 0 3 =
      ⟨[65, 65, 65, 65, 0, 66, 66, 66, 66, 0], some "Text pool overflow"⟩ :=
  set_field_pool_overflow_atomic [65, 65, 65, 65, 0, 66, 66, 66, 66, 0]
    "sta_ssid" { format := .strf 10, baseaddr := 0, strindex := some 0 } 10
    [67, 67, 67, 67, 67, 67, 67, 67] 0 3 0 (by decide) rfl rfl rfl (by decide)


/-- Reducing the signed reading of a word mod `2^(8*size)` recovers the
unsigned word: the two encodings share the same low bytes. -/
theorem unpack_elem_emod (size : Nat) (dobj : Buffer) (addr : Nat)
    (hb : ∀ x ∈ dobj, x < 256) :
    (unpack_elem true size dobj addr).emod (2 ^ (8 * size))
      = ((unpack_le size dobj addr : Nat) : Int) := by
  have hlt := unpack_le_lt size dobj addr hb
  show (if true = true ∧ 2 ^ (8 * size - 1) ≤ unpack_le size dobj addr
      then ((unpack_le size dobj addr : Int)) - 2 ^ (8 * size)
      else ((unpack_le size dobj addr : Int))).emod (2 ^ (8 * size))
    = ((unpack_le size dobj addr : Nat) : Int)
  split
  · show ((unpack_le size dobj addr : Int) - 2 ^ (8 * size)) % (2 ^ (8 * size))
        = ((unpack_le size dobj addr : Nat) : Int)
    rw [Int.sub_emod, Int.emod_self, Int.sub_zero, Int.emod_emod_of_dvd _ dvd_rfl]
    exact Int.emod_eq_of_lt (by positivity) (by exact_mod_cast hlt)
  · exact Int.emod_eq_of_lt (by positivity) (by exact_mod_cast hlt)

set_option maxRecDepth 100000 in
set_option maxHeartbeats 64000000 in
/-- C2: the Unishox compress/decompress round-trip returns the input exactly
on each of the five spec vectors: the empty string, the one-byte string
`"a"`, a 500-byte run of one repeated character, a string with the
substring `"abcde"` repeated five times, and 200 pseudo-random bytes -
with output buffers large enough on both sides. -/
theorem unishox_roundtrip_c2 :
    Unishox.unishox_roundtrip [] 16 16 = some [] ∧
    Unishox.unishox_roundtrip [97] 16 16 = some [97] ∧
    Unishox.unishox_roundtrip (List.replicate 500 97) 64 1024
      = some (List.replicate 500 97) ∧
    Unishox.unishox_roundtrip rpt_substring_input 64 64
      = some rpt_substring_input ∧
    Unishox.unishox_roundtrip (lcg_bytes 42 200) 2048 1024
      = some (lcg_bytes 42 200) :=
  ⟨by decide, by decide, by decide, by decide, by decide⟩

end DecodeConfig
